import Mathlib

/-!
Verification of the arc-merchant x402 payment core.

This development is a shallow embedding, in Lean 4, of the protocol core of
the arc-merchant repository: the reconciliation ledger (`src/lib/stats.ts`),
the Circle settlement poller (`waitForCircleTransaction` in
`src/lib/circle-wallet.ts`), the facilitator HTTP routes
(`src/servers/facilitator.ts`), the money parser registered for the Arc
network (`src/lib/x402.ts`), the payment-paying agent tool
(`arc_pay_for_content` in `src/tools/core.ts`), the MCP tool adapter
(`src/tools/adapters/mcp.ts`), and the x402-protected article endpoint
(`src/app/api/article/[slug]/route.ts`).

TypeScript values are embedded as follows: JS numbers that only carry data
are `ℚ`; JS numbers whose binary64 rounding matters (price-to-amount
conversion) go through an explicit IEEE-754 binary64 round-to-nearest-even
model (`doubleRound`); `string` is `String`; `T | null | undefined` is
`Option T`; thrown exceptions are `Except`.  String manipulation is defined
over `List Char` so that every definition evaluates inside the kernel.
-/

namespace ArcMerchant

attribute [local semireducible] Rat.add Rat.mul Rat.sub Rat.inv

/-! ## JavaScript primitives -/

/-- Truthiness of a JS `string | null | undefined` value: `null`, `undefined`
and the empty string are falsy. -/
def jsTruthyOptStr : Option String → Bool
  | none => false
  | some s => s ≠ ""

/-- The JS expression `a || b` for `a : string | null | undefined` and a
string default `b`. -/
def jsOrStr (a : Option String) (b : String) : String :=
  match a with
  | some s => if s = "" then b else s
  | none => b

/-- The JS expression `a || b` on two `string | undefined` values. -/
def jsOrOpt (a b : Option String) : Option String :=
  if jsTruthyOptStr a then a else b

/-- ASCII lowering of one character, the fragment of
`String.prototype.toLowerCase` exercised by hex account addresses. -/
def charLower (c : Char) : Char :=
  if 65 ≤ c.toNat ∧ c.toNat ≤ 90 then Char.ofNat (c.toNat + 32) else c

/-- The JS `s.toLowerCase()` on ASCII data. -/
def jsToLower (s : String) : String := String.mk (s.data.map charLower)

/-- Whether `pat` occurs at the head of `l`. -/
def listStartsWith : List Char → List Char → Bool
  | [], _ => true
  | _ :: _, [] => false
  | a :: as, b :: bs => a == b && listStartsWith as bs

/-- Whether `pat` occurs anywhere in `l` (the JS `String.prototype.includes`). -/
def listContainsSub (pat : List Char) : List Char → Bool
  | [] => pat.isEmpty
  | c :: cs => listStartsWith pat (c :: cs) || listContainsSub pat cs

/-- The JS `hay.includes(pat)`. -/
def strIncludes (hay pat : String) : Bool := listContainsSub pat.data hay.data

/-- Remove the first occurrence of `pat` from `l`; identity when `pat` does
not occur. -/
def listRemoveFirst (pat : List Char) : List Char → List Char
  | [] => []
  | c :: cs =>
    if listStartsWith pat (c :: cs) then (c :: cs).drop pat.length
    else c :: listRemoveFirst pat cs

/-- The JS `hay.replace(pat, "")`, which replaces only the first occurrence. -/
def strReplaceFirst (hay pat : String) : String :=
  String.mk (listRemoveFirst pat.data hay.data)

/-- Decimal digit test (kernel-evaluable). -/
def isDigitCh (c : Char) : Bool := 48 ≤ c.toNat && c.toNat ≤ 57

/-- Numeric value of a list of decimal digits. -/
def digitsVal (l : List Char) : ℕ := l.foldl (fun a c => 10 * a + (c.toNat - 48)) 0

/-- Signed decimal integer parse, the fragment of `BigInt(string)` exercised
by x402 `amount` fields (optional sign followed by decimal digits). -/
def jsBigInt (s : String) : Option ℤ :=
  match s.data with
  | [] => some 0
  | '-' :: rest => if rest ≠ [] ∧ rest.all isDigitCh then some (-(digitsVal rest : ℤ)) else none
  | '+' :: rest => if rest ≠ [] ∧ rest.all isDigitCh then some (digitsVal rest : ℤ) else none
  | l => if l.all isDigitCh then some (digitsVal l : ℤ) else none

/-- Exact rational value of a decimal literal `digits[.digits]`, reading the
longest valid prefix like `parseFloat`; `none` models `NaN`. -/
def parseDecimalQ (s : String) : Option ℚ :=
  let cs := s.data
  let ip := cs.takeWhile isDigitCh
  let rest := cs.dropWhile isDigitCh
  match rest with
  | '.' :: rest2 =>
    let fp := rest2.takeWhile isDigitCh
    if ip.isEmpty && fp.isEmpty then none
    else some ((digitsVal ip : ℚ) + mkRat (digitsVal fp) (10 ^ fp.length))
  | _ => if ip.isEmpty then none else some (digitsVal ip : ℚ)

/-! ## IEEE-754 binary64 rounding model

`doubleRound q` is the binary64 double nearest to the real number `q`
(round-to-nearest, ties-to-even), as an exact rational.  Overflow and
subnormals are not modelled: every number handled by the price
arithmetic of this repository lies well inside the normal range. -/

/-- Fuel-driven base-2 logarithm (kernel-evaluable `Nat.log2`). -/
def log2Fuel : ℕ → ℕ → ℕ
  | 0, _ => 0
  | f+1, n => if n ≥ 2 then log2Fuel f (n / 2) + 1 else 0

/-- Floor of the base-2 logarithm of a positive natural. -/
def natLog2 (n : ℕ) : ℕ := log2Fuel n n

/-- Whether `2 ^ e ≤ n / d` for positive naturals `n`, `d`. -/
def qle2pow (e : ℤ) (n d : ℕ) : Bool :=
  match e with
  | .ofNat k => 2 ^ k * d ≤ n
  | .negSucc k => d ≤ 2 ^ (k + 1) * n

/-- Floor of the base-2 logarithm of the positive rational `n / d`. -/
def floorLog2Q (n d : ℕ) : ℤ :=
  let e0 : ℤ := (natLog2 n : ℤ) - (natLog2 d : ℤ)
  if qle2pow (e0 + 1) n d then e0 + 1
  else if qle2pow e0 n d then e0
  else e0 - 1

/-- Round the fraction `a / b` (with `b > 0`) to the nearest natural,
ties going to the even neighbour. -/
def roundHalfEvenFrac (a b : ℕ) : ℕ :=
  let q := a / b
  let r := a % b
  if 2 * r < b then q
  else if b < 2 * r then q + 1
  else if q % 2 = 0 then q else q + 1

/-- Round the positive rational `n / d` to the nearest binary64 value
(53-bit significand). -/
def doubleRoundPos (n d : ℕ) : ℚ :=
  let e := floorLog2Q n d
  match (52 : ℤ) - e with
  | .ofNat k => mkRat (roundHalfEvenFrac (n * 2 ^ k) d) (2 ^ k)
  | .negSucc k => mkRat ((roundHalfEvenFrac n (d * 2 ^ (k + 1)) : ℤ) * 2 ^ (k + 1)) 1

/-- Round a rational to the nearest binary64 value. -/
def doubleRound (q : ℚ) : ℚ :=
  if q = 0 then 0
  else if 0 < q then doubleRoundPos q.num.natAbs q.den
  else -doubleRoundPos q.num.natAbs q.den

/-- Binary64 multiplication: exact product, then one rounding. -/
def jsMul (a b : ℚ) : ℚ := doubleRound (a * b)

/-- Model of `parseFloat` on a decimal literal: exact rational value, then binary64
rounding; `none` models `NaN`. -/
def jsParseFloat (s : String) : Option ℚ := (parseDecimalQ s).map doubleRound

/-- The JS comparison `a > b` where either side may be `NaN` (`none`):
any comparison with `NaN` is false. -/
def jsGtOpt (a b : Option ℚ) : Bool :=
  match a, b with
  | some x, some y => decide (y < x)
  | _, _ => false

/-! ## Reconciliation ledger (`src/lib/stats.ts`) -/

/-- One accepted payment, `interface Payment` of `src/lib/stats.ts`:
`amount` is in USDC, `txHash` is null until settlement is reconciled. -/
structure Payment where
  slug : String
  amount : ℚ
  txHash : Option String
  payer : String
  timestamp : ℤ
deriving DecidableEq

/-- Per-article aggregate, `interface ArticleStats`. -/
structure ArticleStats where
  slug : String
  title : String
  views : ℕ
  revenue : ℚ
deriving DecidableEq

/-- The process-wide `StatsStore`.  The JS `Map` is an association list in
insertion order (`Map.prototype.set` updates in place or appends). -/
structure StatsStore where
  payments : List Payment
  articleStats : List (String × ArticleStats)
  totalRevenue : ℚ
  totalPayments : ℕ
  cachedBalance : Option String
  cachedWalletId : Option String
  cachedWalletAddress : Option String
  balanceCacheTime : ℤ
  balanceNeedsRefresh : Bool
deriving DecidableEq

/-- The store a fresh process starts from. -/
def initialStore : StatsStore :=
  { payments := []
    articleStats := []
    totalRevenue := 0
    totalPayments := 0
    cachedBalance := none
    cachedWalletId := none
    cachedWalletAddress := none
    balanceCacheTime := 0
    balanceNeedsRefresh := true }

/-- Lookup in the insertion-ordered map. -/
def mapGet (m : List (String × ArticleStats)) (k : String) : Option ArticleStats :=
  match m with
  | [] => none
  | (k2, v) :: rest => if k2 = k then some v else mapGet rest k

/-- The JS `Map.prototype.set`: replace in place when the key exists, append
otherwise. -/
def mapSet (m : List (String × ArticleStats)) (k : String) (v : ArticleStats) :
    List (String × ArticleStats) :=
  match m with
  | [] => [(k, v)]
  | (k2, v2) :: rest =>
    if k2 = k then (k2, v) :: rest else (k2, v2) :: mapSet rest k v

/-- Function `recordPayment` of `src/lib/stats.ts`: unshift the new payment, keep only
the last 50 records (`pop` when the length exceeds 50), bump the totals,
update the per-article stats and flag the balance cache. -/
def recordPayment (payment : Payment) (articleTitle : String) (s : StatsStore) : StatsStore :=
  let ps0 := payment :: s.payments
  let ps := if ps0.length > 50 then ps0.dropLast else ps0
  let astats :=
    match mapGet s.articleStats payment.slug with
    | some existing =>
      mapSet s.articleStats payment.slug
        { existing with views := existing.views + 1, revenue := existing.revenue + payment.amount }
    | none =>
      mapSet s.articleStats payment.slug
        { slug := payment.slug, title := articleTitle, views := 1, revenue := payment.amount }
  { s with
    payments := ps
    totalPayments := s.totalPayments + 1
    totalRevenue := s.totalRevenue + payment.amount
    articleStats := astats
    balanceNeedsRefresh := true }

/-- Function `resetStats` of `src/lib/stats.ts`. -/
def resetStats (_s : StatsStore) : StatsStore :=
  { payments := []
    articleStats := []
    totalRevenue := 0
    totalPayments := 0
    cachedBalance := none
    cachedWalletId := none
    cachedWalletAddress := none
    balanceCacheTime := 0
    balanceNeedsRefresh := true }

/-- The predicate of the `find` call in `updatePaymentTxHash`:
`p.slug === slug && p.payer.toLowerCase() === payer.toLowerCase() && !p.txHash`. -/
def paymentWanted (slug payer : String) (p : Payment) : Bool :=
  p.slug == slug && jsToLower p.payer == jsToLower payer && !(jsTruthyOptStr p.txHash)

/-- Mutate the first matching record of the list in place. -/
def attachFirst (slug payer tx : String) : List Payment → Bool × List Payment
  | [] => (false, [])
  | p :: ps =>
    if paymentWanted slug payer p then (true, { p with txHash := some tx } :: ps)
    else
      let r := attachFirst slug payer tx ps
      (r.1, p :: r.2)

/-- Function `updatePaymentTxHash` of `src/lib/stats.ts`: fill `txHash` into the most
recent (the list is newest-first) record matching `slug` and
case-insensitive `payer` that has no `txHash`; report whether a record was
updated. -/
def updatePaymentTxHash (slug payer txHash : String) (s : StatsStore) : Bool × StatsStore :=
  let r := attachFirst slug payer txHash s.payments
  (r.1, { s with payments := r.2 })

/-! ## Circle settlement poller (`waitForCircleTransaction`, `src/lib/circle-wallet.ts`)

The Circle backend is a function from the attempt index to the transaction
object returned by `circleClient.getTransaction` (`none` when the response
carries no transaction).  The result of the poller is
`Except String (String × String)`: a thrown `Error` message on the left, the
`{ txHash, state }` pair on the right.  Alongside the result we account for
the number of `getTransaction` calls made and the total milliseconds slept,
to state the attempt/delay budget. -/

/-- The transaction object of a Circle `getTransaction` response. -/
structure CircleTx where
  state : String
  txHash : Option String
  errorReason : Option String
deriving DecidableEq

/-- Default polling budget of `waitForCircleTransaction`: `maxAttempts = 60`. -/
def waitDefaultMaxAttempts : ℕ := 60

/-- Default inter-attempt delay of `waitForCircleTransaction`: `intervalMs = 1000`. -/
def waitDefaultIntervalMs : ℕ := 1000

/-- The `switch (tx.state)` body of one polling iteration: `some r` when the
loop exits with result `r`, `none` when the state is non-terminal and the
loop sleeps and polls again. -/
def waitStep (tx : CircleTx) : Option (Except String (String × String)) :=
  if tx.state = "COMPLETE" then
    if jsTruthyOptStr tx.txHash then some (.ok (jsOrStr tx.txHash "", tx.state))
    else some (.error "Transaction complete but no txHash")
  else if tx.state = "FAILED" then
    some (.error ("Transaction failed: " ++ jsOrStr tx.errorReason "Unknown error"))
  else if tx.state = "CANCELLED" then some (.error "Transaction was cancelled")
  else if tx.state = "DENIED" then some (.error "Transaction was denied")
  else none

/-- Message of the `Transaction ${id} not found` throw. -/
def notFoundMsg (transactionId : String) : String :=
  "Transaction " ++ transactionId ++ " not found"

/-- Message of the timeout throw after the attempt budget is exhausted. -/
def timeoutMsg (transactionId : String) (maxAttempts : ℕ) : String :=
  "Transaction " ++ transactionId ++ " timed out after " ++ toString maxAttempts ++ " attempts"

/-- Outcome of polling once: `some r` when the loop exits with `r` at this
attempt (missing transaction or terminal state), `none` when it keeps going. -/
def pollOutcome (transactionId : String) (o : Option CircleTx) :
    Option (Except String (String × String)) :=
  match o with
  | none => some (.error (notFoundMsg transactionId))
  | some tx => waitStep tx

/-- The `for` loop of `waitForCircleTransaction`, with `fuel` remaining
attempts and `i` the current attempt index; returns the result together with
the number of polls made and the total milliseconds slept. -/
def waitAux (transactionId : String) (backend : ℕ → Option CircleTx)
    (maxAttempts intervalMs : ℕ) :
    ℕ → ℕ → Except String (String × String) × ℕ × ℕ
  | _, 0 => (.error (timeoutMsg transactionId maxAttempts), 0, 0)
  | i, fuel + 1 =>
    match pollOutcome transactionId (backend i) with
    | some r => (r, 1, 0)
    | none =>
      let rec2 := waitAux transactionId backend maxAttempts intervalMs (i + 1) fuel
      (rec2.1, rec2.2.1 + 1, rec2.2.2 + intervalMs)

/-- Run of `waitForCircleTransaction(transactionId, maxAttempts, intervalMs)` with
its poll and sleep accounting. -/
def waitRun (transactionId : String) (backend : ℕ → Option CircleTx)
    (maxAttempts intervalMs : ℕ) : Except String (String × String) × ℕ × ℕ :=
  waitAux transactionId backend maxAttempts intervalMs 0 maxAttempts

/-- The result of `waitForCircleTransaction`: the `{ txHash, state }` value
or the thrown message. -/
def waitForCircleTransaction (transactionId : String) (backend : ℕ → Option CircleTx)
    (maxAttempts intervalMs : ℕ) : Except String (String × String) :=
  (waitRun transactionId backend maxAttempts intervalMs).1

/-- Whether one poll leaves the loop pending (non-terminal transaction state). -/
def pollPending (o : Option CircleTx) : Bool :=
  (pollOutcome "" o).isNone

/-! ## Facilitator HTTP routes (`src/servers/facilitator.ts`)

A route handler is a pure function from the pieces of the request it reads
and the outcome of the awaited facilitator call (a normal value or a thrown
`Error`) to the HTTP response it sends.  `express` guarantees that the
catch block of the handler is the last chance to produce a response; both routes catch
everything, so the response is total by construction. -/

/-- A thrown JS `Error`, with its `message` and `stack`. -/
structure JsError where
  message : String
  stack : String
deriving DecidableEq

/-- The `/verify` response value of `facilitator.verify`. -/
structure VerifyResponse where
  isValid : Bool
  invalidReason : Option String
deriving DecidableEq

/-- The `/settle` response value of `facilitator.settle`. -/
structure SettleResponse where
  success : Bool
  transaction : Option String
  errorReason : Option String
  network : Option String
deriving DecidableEq

/-- Body of an HTTP response from the facilitator verify route. -/
inductive VerifyHttpBody
  | verifyResp (v : VerifyResponse)
  | missingFields (msg : String)
  | errorEnvelope (msg : String)
deriving DecidableEq

/-- Body of an HTTP response from the facilitator settle route. -/
inductive SettleHttpBody
  | settleResp (r : SettleResponse)
  | missingFields (msg : String)
  | errorEnvelope (msg : String)
deriving DecidableEq

/-- An HTTP status/body pair. -/
structure HttpResult (β : Type) where
  status : ℕ
  body : β
deriving DecidableEq

/-- The marker the catch block of the settle route looks for with `includes`. -/
def settleAbortCheck : String := "Settlement aborted:"

/-- The string the catch block of the settle route strips with `replace`. -/
def settleAbortStrip : String := "Settlement aborted: "

/-- Route `POST /verify`: 400 when a body field is missing, the facilitator
response on success, and a 500 `{error: message}` envelope when the awaited
call throws. -/
def verifyRoute (bodyPresent : Bool) (outcome : Except JsError VerifyResponse) :
    HttpResult VerifyHttpBody :=
  if bodyPresent = false then
    ⟨400, .missingFields "Missing paymentPayload or paymentRequirements"⟩
  else
    match outcome with
    | .ok v => ⟨200, .verifyResp v⟩
    | .error e => ⟨500, .errorEnvelope e.message⟩

/-- Route `POST /settle`: 400 when a body field is missing, the facilitator
response on success; a thrown `Error` whose message contains
`Settlement aborted:` becomes a 200 `{success:false, errorReason, network}`
response, and any other thrown `Error` becomes a 500 `{error: message}`
envelope. -/
def settleRoute (bodyPresent : Bool) (reqNetwork : Option String)
    (outcome : Except JsError SettleResponse) : HttpResult SettleHttpBody :=
  if bodyPresent = false then
    ⟨400, .missingFields "Missing paymentPayload or paymentRequirements"⟩
  else
    match outcome with
    | .ok r => ⟨200, .settleResp r⟩
    | .error e =>
      if strIncludes e.message settleAbortCheck then
        ⟨200, .settleResp
          { success := false
            transaction := none
            errorReason := some (strReplaceFirst e.message settleAbortStrip)
            network := some (jsOrStr reqNetwork "unknown") }⟩
      else ⟨500, .errorEnvelope e.message⟩

/-! ## Arc money parser (`src/lib/x402.ts`) -/

/-- The Arc network identifier. -/
def arcNetworkId : String := "eip155:5042002"

/-- The Arc USDC contract address (`ARC_CONTRACTS.USDC`). -/
def usdcAddress : String := "0x3600000000000000000000000000000000000000"

/-- The value returned by the money parser registered with
`evmScheme.registerMoneyParser`. -/
structure MoneyParseResult where
  amount : String
  asset : String
  extraName : String
  extraVersion : String
deriving DecidableEq

/-- The money parser of `src/lib/x402.ts`: on the Arc network a decimal
dollar amount (a binary64 number) becomes the USDC token amount
`Math.floor(amount * 1_000_000).toString()`; other networks fall through. -/
def arcMoneyParser (amount : ℚ) (network : String) : Option MoneyParseResult :=
  if network = arcNetworkId then
    some
      { amount := toString (Int.floor (jsMul amount 1000000))
        asset := usdcAddress
        extraName := "USDC"
        extraVersion := "2" }
  else none

/-- The decimal price strings the configuration of this repository offers on the
Arc network (after stripping the `$` sign): the article endpoint and the
premium endpoint both quote `$0.01`, and every article field `priceUsd` is
`0.01`. -/
def offeredArcPrices : List String := ["0.01"]

/-! ## Agent payment tool (`arc_pay_for_content`, `src/tools/core.ts`) -/

/-- The requirement fields consulted by Step 4 of `arc_pay_for_content`
(`requirements.amount`, `requirements.maxAmountRequired`,
`requirements.price`), each a string or absent. -/
structure PayRequirementFields where
  amount : Option String
  maxAmountRequired : Option String
  price : Option String
deriving DecidableEq

/-- Failures of the amount computation; the JS code throws or returns
`{success:false, error}` with interpolated text, kept structured here. -/
inductive ArcPayError
  | invalidNumber
  | priceExceedsMax (price maxPrice : ℚ)
deriving DecidableEq

/-- Step 4 of `arc_pay_for_content`: when `requirements.amount` is truthy
the signed amount is `BigInt(requirements.amount)` (the caller supplied `max_price`
is never consulted); otherwise the decimal price string
(`maxAmountRequired || price || "$0.01"`, `$` stripped) is parsed with
`parseFloat`, rejected if it exceeds `parseFloat(max_price || "1.00")`, and
converted with `BigInt(Math.floor(priceNum * 1_000_000))`. -/
def arcPayAmount (req : PayRequirementFields) (maxPriceStr : String) : Except ArcPayError ℤ :=
  let maxPriceUSDC := jsParseFloat (jsOrStr (some maxPriceStr) "1.00")
  if jsTruthyOptStr req.amount then
    match jsBigInt (jsOrStr req.amount "") with
    | some v => .ok v
    | none => .error .invalidNumber
  else
    let priceStr := jsOrStr (jsOrOpt req.maxAmountRequired (jsOrOpt req.price (some "$0.01"))) ""
    match jsParseFloat (strReplaceFirst priceStr "$") with
    | none => .error .invalidNumber
    | some priceNum =>
      if jsGtOpt (some priceNum) maxPriceUSDC then
        .error (.priceExceedsMax priceNum ((maxPriceUSDC).getD 0))
      else .ok (Int.floor (jsMul priceNum 1000000))

/-- The `transaction` field of a decoded `{transaction: ...}` payment
response JSON. -/
structure PaymentRespJson where
  transaction : Option String
deriving DecidableEq

/-- Step 9 of `arc_pay_for_content`: the settlement transaction hash is read
from the `payment-response` response header (`txHash` stays null when the
header is absent); `dec` stands for the base64 + JSON decoding of the header
value. -/
def arcPayExtractTx (headers : String → Option String)
    (dec : String → PaymentRespJson) : Option String :=
  match headers "payment-response" with
  | none => none
  | some raw => (dec raw).transaction

/-! ## MCP tool adapter (`executeTool`, `src/tools/adapters/mcp.ts`) -/

/-- The MCP `CallToolResult` produced by `executeTool`, kept structured:
`errorText` carries the fields of the catch-branch
value `JSON.stringify({success:false, error: message, stack})`. -/
inductive McpToolResult
  | okText (text : String)
  | unknownTool (name : String)
  | errorText (message stack : String)
deriving DecidableEq

/-- Function `executeTool` of the MCP adapter: unknown tools produce an error result;
a successful execution is serialized as-is; a thrown `Error` (from schema
parsing or the tool body) produces a result embedding `error.message` and
`error.stack`. -/
def executeTool (knownTool : Bool) (name : String)
    (run : Except JsError String) : McpToolResult :=
  if knownTool = false then .unknownTool name
  else
    match run with
    | .ok text => .okText text
    | .error e => .errorText e.message e.stack

/-! ## Article endpoint (`src/app/api/article/[slug]/route.ts`) -/

/-- The payer recorded by the article handler: the `from` field decoded out
of the `payment-signature` request header, `"unknown"` when the header is
absent, fails to decode, or yields a falsy address.  `sigDec` stands for the
base64 + JSON decoding down to `parsed.payload?.authorization?.from`. -/
def articlePayer (headers : String → Option String)
    (sigDec : String → Option (Option String)) : String :=
  match headers "payment-signature" with
  | none => "unknown"
  | some raw =>
    match sigDec raw with
    | none => "unknown"
    | some fromField => jsOrStr fromField "unknown"

/-- The transaction hash recorded by the article handler: decoded out of the
`x-payment-response` request header (`parsed.transaction || null`), and null
when that header is absent or fails to decode.  `respDec` stands for the
base64 + JSON decoding of the header value (`none` models a parse throw
swallowed by the catch). -/
def articleTxHash (headers : String → Option String)
    (respDec : String → Option PaymentRespJson) : Option String :=
  match headers "x-payment-response" with
  | none => none
  | some raw =>
    match respDec raw with
    | none => none
    | some parsed => if jsTruthyOptStr parsed.transaction then parsed.transaction else none

/-- The `Payment` record the article handler passes to `recordPayment`
after the x402 middleware let the request through: amount hardcoded to
`$0.01`, payer from the `payment-signature` header, transaction hash from
the `x-payment-response` header. -/
def articleRecordedPayment (slug : String) (headers : String → Option String)
    (sigDec : String → Option (Option String))
    (respDec : String → Option PaymentRespJson) (now : ℤ) : Payment :=
  { slug := slug
    amount := mkRat 1 100
    txHash := articleTxHash headers respDec
    payer := articlePayer headers sigDec
    timestamp := now }

/-! ## Resource Gate (protocol state machine)

Modelled from the spec: the Resource Gate of spec section 4.2.  The gate
itself (`withX402` of the `@x402/next` package) is not part of this
sources of this repository; only its configuration at the two protected
routes is.  The model follows the transition rules of the spec: missing envelope gives
the 402 challenge; a malformed envelope gives a 400-class rejection; an
unoffered requirement gives a rejection; then verify, then settle, and only
after a successful settle is the protected handler invoked. -/

/-- The collaborating pieces the gate drives, as pure oracles: the codec,
the offered-requirement check, the Verifier, the Settler and the protected
handler (its response body). -/
structure GateHooks where
  decode : String → Option String
  offered : String → Bool
  verify : String → VerifyResponse
  settle : String → SettleResponse
  handlerBody : String
  challengeBody : String

/-- Observable events of one request lifecycle, in emission order. -/
inductive GateEvent
  | challenged
  | rejectedMalformed
  | rejectedMismatch
  | verifyFailed
  | verified
  | settleFailed
  | settled
  | handlerInvoked
deriving DecidableEq

/-- The gate response to one request. -/
inductive GateOutcome
  | paymentRequired (challenge : String)
  | badRequest (reason : String)
  | verifyRejected (invalidReason : String)
  | settleRejected (errorReason : String)
  | fulfilled (body : String) (transaction : Option String)
deriving DecidableEq

/-- Modelled from the spec: one request through the Resource Gate, returning
the response and the ordered trace of lifecycle events. -/
def runGate (g : GateHooks) (paymentHeader : Option String) :
    GateOutcome × List GateEvent :=
  match paymentHeader with
  | none => (.paymentRequired g.challengeBody, [.challenged])
  | some raw =>
    match g.decode raw with
    | none => (.badRequest "malformed payment envelope", [.rejectedMalformed])
    | some payload =>
      if g.offered payload = false then
        (.badRequest "requirement mismatch", [.rejectedMismatch])
      else
        let v := g.verify payload
        if v.isValid = false then
          (.verifyRejected (jsOrStr v.invalidReason "unknown"), [.verifyFailed])
        else
          let s := g.settle payload
          if s.success = false then
            (.settleRejected (jsOrStr s.errorReason "unknown"), [.verified, .settleFailed])
          else
            (.fulfilled g.handlerBody s.transaction, [.verified, .settled, .handlerInvoked])

/-! ## Derived predicates and concrete instances used by the theorems -/

/-- The claim-level matching predicate of `attachTransaction`: same resource,
case-insensitively same payer, and no transaction hash attached yet. -/
def matchesUnattached (slug payer : String) (p : Payment) : Prop :=
  p.slug = slug ∧ jsToLower p.payer = jsToLower payer ∧ p.txHash = none

instance (slug payer : String) (p : Payment) : Decidable (matchesUnattached slug payer p) := by
  unfold matchesUnattached
  infer_instance

/-- The settlement-independent projection of a ledger record (everything but
`txHash`). -/
def stripTx (p : Payment) : String × ℚ × String × ℤ :=
  (p.slug, p.amount, p.payer, p.timestamp)

/-- A concrete ledger payment used by witnesses and the retention
counterexample. -/
def cPay (i : ℕ) : Payment :=
  { slug := toString i, amount := 0, txHash := none, payer := "0xAgent", timestamp := (i : ℤ) }

/-- The store after 51 `recordPayment` calls on a fresh process. -/
def ledgerAfter51 : StatsStore :=
  (List.range 51).foldl (fun s i => recordPayment (cPay i) "Article" s) initialStore

/-- A concrete store carrying one reconciled and two unattached records for
the same article, newest first. -/
def c2Store : StatsStore :=
  { initialStore with
    payments :=
      [ { slug := "a1", amount := 0, txHash := some "0xold", payer := "0xAB", timestamp := 2 }
      , { slug := "a1", amount := 0, txHash := none, payer := "0xab", timestamp := 1 }
      , { slug := "a1", amount := 0, txHash := none, payer := "0xAB", timestamp := 0 } ] }

/-- Concrete response headers that carry only the canonical
`payment-response` header. -/
def c8Headers : String → Option String :=
  fun k => if k = "payment-response" then some "eyJ0cmFuc2FjdGlvbiI6IjB4ZGVhZCJ9" else none

/-- Gate collaborators for which the whole pipeline succeeds. -/
def gateHooksDemo : GateHooks :=
  { decode := fun raw => some raw
    offered := fun _ => true
    verify := fun _ => { isValid := true, invalidReason := none }
    settle := fun _ =>
      { success := true, transaction := some "0xtx", errorReason := none
        network := some arcNetworkId }
    handlerBody := "article content"
    challengeBody := "payment required" }

/-! ## Theorems -/

/-- C1: for every request handled by the Resource Gate, verify precedes
settle and settle precedes invocation of the protected handler; no
execution path releases the protected resource body without a prior
successful settle. -/
theorem gate_verify_settle_handler_order (g : GateHooks) (hd : Option String) :
    (GateEvent.handlerInvoked ∈ (runGate g hd).2 →
        (runGate g hd).2 = [.verified, .settled, .handlerInvoked])
  ∧ (GateEvent.settled ∈ (runGate g hd).2 → GateEvent.verified ∈ (runGate g hd).2)
  ∧ (∀ b t, (runGate g hd).1 = .fulfilled b t →
        ∃ raw payload, hd = some raw ∧ g.decode raw = some payload
          ∧ (g.verify payload).isValid = true ∧ (g.settle payload).success = true
          ∧ (runGate g hd).2 = [.verified, .settled, .handlerInvoked]) := by
  cases hd with
  | none => refine ⟨?_, ?_, ?_⟩ <;> simp [runGate]
  | some raw =>
    cases hdec : g.decode raw with
    | none => refine ⟨?_, ?_, ?_⟩ <;> simp [runGate, hdec]
    | some payload =>
      by_cases hoff : g.offered payload = false
      · refine ⟨?_, ?_, ?_⟩ <;> simp [runGate, hdec, hoff]
      · by_cases hv : (g.verify payload).isValid = false
        · refine ⟨?_, ?_, ?_⟩ <;> simp [runGate, hdec, hoff, hv]
        · by_cases hs : (g.settle payload).success = false
          · refine ⟨?_, ?_, ?_⟩ <;> simp [runGate, hdec, hoff, hv, hs]
          · refine ⟨?_, ?_, ?_⟩ <;> simp [runGate, hdec, hoff, hv, hs]

/-- Witness for C1: with all-succeeding collaborators the gate fulfills the
request, having verified and settled first. -/
theorem gate_verify_settle_handler_order_witness :
    ∃ raw payload, (some "envelope" : Option String) = some raw
      ∧ gateHooksDemo.decode raw = some payload
      ∧ (gateHooksDemo.verify payload).isValid = true
      ∧ (gateHooksDemo.settle payload).success = true
      ∧ (runGate gateHooksDemo (some "envelope")).2
          = [.verified, .settled, .handlerInvoked] :=
  (gate_verify_settle_handler_order gateHooksDemo (some "envelope")).2.2
    "article content" (some "0xtx") rfl

/-- A truthy optional string is a non-empty `some`. -/
theorem jsTruthy_elim {o : Option String} (ho : jsTruthyOptStr o = true) :
    ∃ s, o = some s ∧ s ≠ "" := by
  cases o with
  | none => exact absurd ho (by simp [jsTruthyOptStr])
  | some s => exact ⟨s, rfl, by simpa [jsTruthyOptStr] using ho⟩

/-- Extracting a truthy optional string never yields the empty string. -/
theorem jsOrStr_truthy_ne {o : Option String} {d : String}
    (ho : jsTruthyOptStr o = true) : jsOrStr o d ≠ "" := by
  obtain ⟨s, rfl, hs⟩ := jsTruthy_elim ho
  simp only [jsOrStr, if_neg hs]
  exact hs

/-- A successful exit of the polling switch only arises from a `COMPLETE`
state carrying a non-empty hash. -/
theorem waitStep_ok {tx : CircleTx} {h st : String}
    (hyp : waitStep tx = some (.ok (h, st))) : st = "COMPLETE" ∧ h ≠ "" := by
  unfold waitStep at hyp
  split_ifs at hyp with c1 c2 c3 c4 c5
  · simp only [Option.some.injEq, Except.ok.injEq, Prod.mk.injEq] at hyp
    exact ⟨hyp.2.symm.trans c1, fun he => jsOrStr_truthy_ne c2 (hyp.1.trans he)⟩
  all_goals exact absurd hyp (by simp)

/-- A successful run of the polling loop only arises from a `COMPLETE`
poll with a non-empty hash. -/
theorem waitAux_ok {transactionId : String} {backend : ℕ → Option CircleTx}
    {maxAttempts intervalMs : ℕ} :
    ∀ fuel i {h st}, (waitAux transactionId backend maxAttempts intervalMs i fuel).1 = .ok (h, st) →
      st = "COMPLETE" ∧ h ≠ ""
  | 0, i, h, st, hyp => absurd hyp (by simp [waitAux])
  | fuel + 1, i, h, st, hyp => by
    cases hpoll : pollOutcome transactionId (backend i) with
    | some r =>
      simp only [waitAux, hpoll] at hyp
      subst hyp
      cases hb : backend i with
      | none =>
        rw [hb] at hpoll
        exact absurd hpoll (by simp [pollOutcome])
      | some tx =>
        rw [hb] at hpoll
        exact waitStep_ok hpoll
    | none =>
      simp only [waitAux, hpoll] at hyp
      exact waitAux_ok fuel (i + 1) hyp

/-- C4: for every settlement poll result whose terminal state is `COMPLETE`
but which carries no transaction hash, the Settler throws rather than
reporting success; it never returns a successful settlement without a
non-empty transaction hash. -/
theorem settler_complete_requires_txHash (transactionId : String)
    (backend : ℕ → Option CircleTx) (maxAttempts intervalMs : ℕ) :
    (∀ h st,
        waitForCircleTransaction transactionId backend maxAttempts intervalMs = .ok (h, st) →
        st = "COMPLETE" ∧ h ≠ "")
  ∧ (∀ tx, backend 0 = some tx → tx.state = "COMPLETE" →
        jsTruthyOptStr tx.txHash = false → 0 < maxAttempts →
        waitForCircleTransaction transactionId backend maxAttempts intervalMs
          = .error "Transaction complete but no txHash") := by
  constructor
  · intro h st hyp
    exact waitAux_ok maxAttempts 0 hyp
  · intro tx hb hstate hfalsy hpos
    obtain ⟨f, rfl⟩ : ∃ f, maxAttempts = f + 1 :=
      ⟨maxAttempts - 1, (Nat.succ_pred_eq_of_pos hpos).symm⟩
    have hstep : waitStep tx = some (.error "Transaction complete but no txHash") := by
      simp [waitStep, hstate, hfalsy]
    unfold waitForCircleTransaction waitRun
    rw [waitAux, hb]
    simp only [pollOutcome, hstep]

/-- Witness for C4: a backend whose first poll is `COMPLETE` without a hash
makes the poller throw the invariant-violation message. -/
theorem settler_complete_requires_txHash_witness :
    waitForCircleTransaction "t4" (fun _ => some ⟨"COMPLETE", none, none⟩) 60 1000
      = .error "Transaction complete but no txHash" :=
  (settler_complete_requires_txHash "t4" (fun _ => some ⟨"COMPLETE", none, none⟩) 60 1000).2
    ⟨"COMPLETE", none, none⟩ rfl rfl rfl (by decide)

/-- Whether one poll keeps the loop going does not depend on the transaction
id used in error messages. -/
theorem pollOutcome_none_iff (transactionId : String) (o : Option CircleTx) :
    pollOutcome transactionId o = none ↔ pollPending o = true := by
  cases o with
  | none => simp [pollOutcome, pollPending]
  | some tx => simp [pollOutcome, pollPending, Option.isNone_iff_eq_none]

/-- The loop makes at most `fuel` polls and sleeps at most `fuel` intervals. -/
theorem waitAux_budget {transactionId : String} {backend : ℕ → Option CircleTx}
    {maxAttempts intervalMs : ℕ} :
    ∀ fuel i,
      (waitAux transactionId backend maxAttempts intervalMs i fuel).2.1 ≤ fuel
    ∧ (waitAux transactionId backend maxAttempts intervalMs i fuel).2.2 ≤ fuel * intervalMs
  | 0, i => by simp [waitAux]
  | fuel + 1, i => by
    cases hpoll : pollOutcome transactionId (backend i) with
    | some r =>
      simp only [waitAux, hpoll]
      exact ⟨by omega, Nat.zero_le _⟩
    | none =>
      have ih := @waitAux_budget transactionId backend maxAttempts intervalMs fuel (i + 1)
      have ih1 := ih.1
      have ih2 := ih.2
      simp only [waitAux, hpoll]
      rw [Nat.succ_mul]
      exact ⟨by omega, by omega⟩

/-- When every poll in the budget is pending, the loop times out having used
the whole budget. -/
theorem waitAux_timeout {transactionId : String} {backend : ℕ → Option CircleTx}
    {maxAttempts intervalMs : ℕ} :
    ∀ fuel i, (∀ j, j < fuel → pollPending (backend (i + j)) = true) →
      waitAux transactionId backend maxAttempts intervalMs i fuel
        = (.error (timeoutMsg transactionId maxAttempts), fuel, fuel * intervalMs)
  | 0, i, _ => by simp [waitAux]
  | fuel + 1, i, hpend => by
    have h0 : pollOutcome transactionId (backend i) = none := by
      have hp := hpend 0 (Nat.succ_pos fuel)
      rw [Nat.add_zero] at hp
      exact (pollOutcome_none_iff transactionId (backend i)).mpr hp
    have ih := @waitAux_timeout transactionId backend maxAttempts intervalMs fuel (i + 1)
      (fun j hj => by
        have hp := hpend (j + 1) (Nat.succ_lt_succ hj)
        rwa [Nat.add_comm j 1, ← Nat.add_assoc] at hp)
    simp only [waitAux, h0, ih]
    rw [Nat.succ_mul]

/-- When the first non-pending poll happens at attempt `k` within the
budget, the loop stops there with the outcome of that poll, having made `k + 1`
polls and slept `k` intervals. -/
theorem waitAux_first_exit {transactionId : String} {backend : ℕ → Option CircleTx}
    {maxAttempts intervalMs : ℕ} :
    ∀ (k fuel i : ℕ) (r : Except String (String × String)), k < fuel →
      (∀ j, j < k → pollPending (backend (i + j)) = true) →
      pollOutcome transactionId (backend (i + k)) = some r →
      waitAux transactionId backend maxAttempts intervalMs i fuel = (r, k + 1, k * intervalMs)
  | 0, fuel, i, r, hk, _, hout => by
    obtain ⟨f, rfl⟩ : ∃ f, fuel = f + 1 := ⟨fuel - 1, (Nat.succ_pred_eq_of_pos hk).symm⟩
    rw [Nat.add_zero] at hout
    simp only [waitAux, hout]
    simp
  | k + 1, fuel, i, r, hk, hpend, hout => by
    obtain ⟨f, rfl⟩ : ∃ f, fuel = f + 1 :=
      ⟨fuel - 1, (Nat.succ_pred_eq_of_pos (Nat.lt_of_le_of_lt (Nat.zero_le _) hk)).symm⟩
    have h0 : pollOutcome transactionId (backend i) = none := by
      have hp := hpend 0 (Nat.succ_pos k)
      rw [Nat.add_zero] at hp
      exact (pollOutcome_none_iff transactionId (backend i)).mpr hp
    have ih := @waitAux_first_exit transactionId backend maxAttempts intervalMs k f (i + 1) r
      (Nat.lt_of_succ_lt_succ hk)
      (fun j hj => by
        have hp := hpend (j + 1) (Nat.succ_lt_succ hj)
        rwa [Nat.add_comm j 1, ← Nat.add_assoc] at hp)
      (by rwa [Nat.add_comm k 1, ← Nat.add_assoc] at hout)
    simp only [waitAux, h0, ih]
    rw [Nat.succ_mul]

/-- C6: the polling loop of the Settler always terminates within the fixed
attempt budget with the fixed inter-attempt delay (by default 60 attempts,
1000 ms apart): at most 60 polls and 60 s of sleeping; when every poll in
the budget is non-terminal the loop stops with the timeout error after
exactly 60 polls, when a terminal (or missing-transaction) poll first
occurs at attempt `k < 60` the loop stops right there with the outcome of
that poll, and the timeout message is distinct from the `CANCELLED` and
`DENIED` on-chain rejection messages. -/
theorem settler_polling_bounded (transactionId : String) (backend : ℕ → Option CircleTx) :
    ((waitRun transactionId backend waitDefaultMaxAttempts waitDefaultIntervalMs).2.1 ≤ 60
    ∧ (waitRun transactionId backend waitDefaultMaxAttempts waitDefaultIntervalMs).2.2 ≤ 60 * 1000)
  ∧ ((∀ j, j < 60 → pollPending (backend j) = true) →
      waitRun transactionId backend waitDefaultMaxAttempts waitDefaultIntervalMs
        = (.error (timeoutMsg transactionId 60), 60, 60 * 1000))
  ∧ (∀ (k : ℕ) (r : Except String (String × String)), k < 60 →
      (∀ j, j < k → pollPending (backend j) = true) →
      pollOutcome transactionId (backend k) = some r →
      waitRun transactionId backend waitDefaultMaxAttempts waitDefaultIntervalMs
        = (r, k + 1, k * 1000))
  ∧ timeoutMsg transactionId 60 ≠ "Transaction was cancelled"
  ∧ timeoutMsg transactionId 60 ≠ "Transaction was denied" := by
  have l1 : ("Transaction " : String).length = 12 := rfl
  have l2 : (" timed out after " : String).length = 17 := rfl
  have l3 : (toString (60 : ℕ)).length = 2 := rfl
  have l4 : (" attempts" : String).length = 9 := rfl
  refine ⟨?_, ?_, ?_, ?_, ?_⟩
  · exact @waitAux_budget transactionId backend 60 1000 60 0
  · intro hp
    have h := @waitAux_timeout transactionId backend 60 1000 60 0
      (fun j hj => by simpa using hp j hj)
    simpa [waitRun, waitDefaultMaxAttempts, waitDefaultIntervalMs] using h
  · intro k r hk hp hout
    have h := @waitAux_first_exit transactionId backend 60 1000 k 60 0 r hk
      (fun j hj => by simpa using hp j hj) (by simpa using hout)
    simpa [waitRun, waitDefaultMaxAttempts, waitDefaultIntervalMs] using h
  · intro h
    have hl := congrArg String.length h
    have l5 : ("Transaction was cancelled" : String).length = 25 := rfl
    simp only [timeoutMsg, String.length_append, l1, l2, l3, l4, l5] at hl
    omega
  · intro h
    have hl := congrArg String.length h
    have l6 : ("Transaction was denied" : String).length = 22 := rfl
    simp only [timeoutMsg, String.length_append, l1, l2, l3, l4, l6] at hl
    omega

/-- Witness for C6: an always-pending backend exhausts exactly the
60-poll budget with 60 intervals of waiting and stops with the timeout
error. -/
theorem settler_polling_bounded_witness :
    waitRun "t6" (fun _ => some ⟨"SENT", none, none⟩) waitDefaultMaxAttempts waitDefaultIntervalMs
      = (.error (timeoutMsg "t6" 60), 60, 60 * 1000) :=
  (settler_polling_bounded "t6" (fun _ => some ⟨"SENT", none, none⟩)).2.1 (fun _ _ => rfl)

/-- C5 counterexample: a `DENIED` terminal state from the Circle polling
path is surfaced by the Settler as a thrown fault (not a
`{success:false, errorReason}` value), and the `/settle` route maps that
fault to an HTTP 500 `{error}` envelope, not to
`{success:false, errorReason}`. -/
theorem settle_denied_surface_counterexample :
    waitForCircleTransaction "t5" (fun _ => some ⟨"DENIED", none, none⟩) 60 1000
      = .error "Transaction was denied"
  ∧ settleRoute true (some "eip155:5042002") (.error ⟨"Transaction was denied", ""⟩)
      = ⟨500, .errorEnvelope "Transaction was denied"⟩ :=
  ⟨rfl, rfl⟩

/-- C5 amended: a `FAILED`/`CANCELLED`/`DENIED` terminal state makes the
Circle polling path throw a fault whose message lacks the
`Settlement aborted:` marker; the `/settle` route maps every fault to a
JSON response (never re-raising): to `{success:false, errorReason}` exactly
when the fault message carries the marker, and to a 500 `{error: message}`
envelope otherwise. -/
theorem settle_terminal_failure_surfacing (transactionId : String)
    (backend : ℕ → Option CircleTx) (net : Option String) (e : JsError)
    (maxAttempts intervalMs : ℕ) :
    (∀ tx, backend 0 = some tx → 0 < maxAttempts →
        (tx.state = "CANCELLED" →
          waitForCircleTransaction transactionId backend maxAttempts intervalMs
            = .error "Transaction was cancelled")
      ∧ (tx.state = "DENIED" →
          waitForCircleTransaction transactionId backend maxAttempts intervalMs
            = .error "Transaction was denied")
      ∧ (tx.state = "FAILED" →
          waitForCircleTransaction transactionId backend maxAttempts intervalMs
            = .error ("Transaction failed: " ++ jsOrStr tx.errorReason "Unknown error")))
  ∧ (strIncludes e.message settleAbortCheck = true →
      settleRoute true net (.error e)
        = ⟨200, .settleResp
            { success := false
              transaction := none
              errorReason := some (strReplaceFirst e.message settleAbortStrip)
              network := some (jsOrStr net "unknown") }⟩)
  ∧ (strIncludes e.message settleAbortCheck = false →
      settleRoute true net (.error e) = ⟨500, .errorEnvelope e.message⟩)
  ∧ strIncludes "Transaction was cancelled" settleAbortCheck = false
  ∧ strIncludes "Transaction was denied" settleAbortCheck = false := by
  refine ⟨?_, ?_, ?_, by decide, by decide⟩
  · intro tx hb hpos
    obtain ⟨f, rfl⟩ : ∃ f, maxAttempts = f + 1 :=
      ⟨maxAttempts - 1, (Nat.succ_pred_eq_of_pos hpos).symm⟩
    refine ⟨fun hstate => ?_, fun hstate => ?_, fun hstate => ?_⟩
    all_goals
      unfold waitForCircleTransaction waitRun
      simp [waitAux, pollOutcome, hb, waitStep, hstate]
  · intro hinc
    simp [settleRoute, hinc]
  · intro hinc
    simp [settleRoute, hinc]

/-- Witness for C5 amended: an abort-marked fault maps to the clean
client-facing `{success:false, errorReason}` body. -/
theorem settle_terminal_failure_surfacing_witness :
    settleRoute true (some "eip155:5042002")
        (.error ⟨"Settlement aborted: insufficient funds", ""⟩)
      = ⟨200, .settleResp
          { success := false
            transaction := none
            errorReason := some (strReplaceFirst "Settlement aborted: insufficient funds" settleAbortStrip)
            network := some (jsOrStr (some "eip155:5042002") "unknown") }⟩ :=
  (settle_terminal_failure_surfacing "t5w" (fun _ => none) (some "eip155:5042002")
      ⟨"Settlement aborted: insufficient funds", ""⟩ 60 1000).2.1 (by decide)

/-- C9 counterexample: when a tool body throws, the catch branch of the
MCP adapter returns the raw exception message together with the raw stack trace
as the terminal client-facing error surface. -/
theorem error_surface_stack_counterexample :
    executeTool true "arc_pay_for_content"
        (.error ⟨"Circle signTypedData error",
          "Error: Circle signTypedData error\n    at signPaymentAuthorization (circle-wallet.ts:161:38)"⟩)
      = .errorText "Circle signTypedData error"
          "Error: Circle signTypedData error\n    at signPaymentAuthorization (circle-wallet.ts:161:38)" :=
  rfl

/-- C9 amended: failures reported as facilitator verify/settle results
surface as structured JSON bodies, and an abort-marked settle fault
surfaces as `{success:false, errorReason}`; but an unexpected exception
surfaces raw — the facilitator catch-alls return a 500
`{error: exception message}` envelope, and the MCP adapter catch returns
a result embedding the exception message and its stack trace. -/
theorem error_surface_shape (e : JsError) (v : VerifyResponse) (r : SettleResponse)
    (net : Option String) (name text : String) :
    verifyRoute true (.ok v) = ⟨200, .verifyResp v⟩
  ∧ settleRoute true net (.ok r) = ⟨200, .settleResp r⟩
  ∧ (strIncludes e.message settleAbortCheck = true →
      (settleRoute true net (.error e)).body
        = .settleResp
            { success := false
              transaction := none
              errorReason := some (strReplaceFirst e.message settleAbortStrip)
              network := some (jsOrStr net "unknown") })
  ∧ (strIncludes e.message settleAbortCheck = false →
      settleRoute true net (.error e) = ⟨500, .errorEnvelope e.message⟩)
  ∧ verifyRoute true (.error e) = ⟨500, .errorEnvelope e.message⟩
  ∧ executeTool true name (.ok text) = .okText text
  ∧ executeTool true name (.error e) = .errorText e.message e.stack := by
  refine ⟨rfl, rfl, ?_, ?_, rfl, rfl, rfl⟩
  · intro hinc
    simp [settleRoute, hinc]
  · intro hinc
    simp [settleRoute, hinc]

/-- Witness for C9 amended: a concrete abort-marked settle fault yields the
structured failure body. -/
theorem error_surface_shape_witness :
    (settleRoute true none (.error ⟨"Settlement aborted: authorization already used", ""⟩)).body
      = .settleResp
          { success := false
            transaction := none
            errorReason := some (strReplaceFirst "Settlement aborted: authorization already used" settleAbortStrip)
            network := some (jsOrStr none "unknown") } :=
  (error_surface_shape ⟨"Settlement aborted: authorization already used", ""⟩
      ⟨true, none⟩ ⟨true, none, none, none⟩ none "t" "x").2.2.1 (by decide)

/-- C8 counterexample: with a response carrying only the canonical
`payment-response` header, the paying tool extracts the transaction hash
but the article handler records `txHash = null` — the ledger record is not
populated from `payment-response`; it is populated from the
`x-payment-response` variant when that one is present. -/
theorem payment_response_header_counterexample :
    arcPayExtractTx c8Headers (fun _ => ⟨some "0xdead"⟩) = some "0xdead"
  ∧ articleTxHash c8Headers (fun _ => some ⟨some "0xdead"⟩) = none
  ∧ articleTxHash (fun k => if k = "x-payment-response" then some "enc" else none)
      (fun _ => some ⟨some "0xdead"⟩) = some "0xdead" :=
  ⟨rfl, rfl, rfl⟩

/-- C8 amended: the paying tool reads the settlement transaction hash from
the `payment-response` header and from nothing else, while the article
handler populates the ledger field `txHash` from the legacy
`x-payment-response` header and from nothing else (null when that header
is absent, even if `payment-response` is present). -/
theorem txhash_header_sources (h1 h2 : String → Option String)
    (td : String → PaymentRespJson) (rd : String → Option PaymentRespJson)
    (raw slug : String) (now : ℤ) :
    (h1 "payment-response" = h2 "payment-response" →
      arcPayExtractTx h1 td = arcPayExtractTx h2 td)
  ∧ (h1 "x-payment-response" = h2 "x-payment-response" →
      articleTxHash h1 rd = articleTxHash h2 rd)
  ∧ (h1 "payment-response" = some raw → arcPayExtractTx h1 td = (td raw).transaction)
  ∧ (h1 "x-payment-response" = none → articleTxHash h1 rd = none)
  ∧ (articleRecordedPayment slug h1 (fun _ => none) rd now).txHash = articleTxHash h1 rd := by
  refine ⟨?_, ?_, ?_, ?_, rfl⟩
  · intro h
    unfold arcPayExtractTx
    rw [h]
  · intro h
    unfold articleTxHash
    rw [h]
  · intro h
    unfold arcPayExtractTx
    rw [h]
  · intro h
    unfold articleTxHash
    rw [h]

/-- Witness for C8 amended: the tool extraction on concrete headers is
exactly the decoded `transaction` field of the `payment-response` value. -/
theorem txhash_header_sources_witness :
    arcPayExtractTx c8Headers (fun _ => ⟨some "0xbeef"⟩)
      = ((fun _ => (⟨some "0xbeef"⟩ : PaymentRespJson)) "eyJ0cmFuc2FjdGlvbiI6IjB4ZGVhZCJ9").transaction :=
  (txhash_header_sources c8Headers c8Headers (fun _ => ⟨some "0xbeef"⟩) (fun _ => none)
      "eyJ0cmFuc2FjdGlvbiI6IjB4ZGVhZCJ9" "slug" 0).2.2.1 rfl

/-- C7: for every decimal currency price this repository offers on the Arc
network, the registered money parser resolves it through binary64
arithmetic to exactly `floor(price * 10^6)` in the fixed 6-decimal USDC
smallest unit; in particular a `$0.01` resource yields the amount string
`"10000"`. -/
theorem registry_fixed_precision_amount :
    (∀ ps ∈ offeredArcPrices,
      ((jsParseFloat ps).bind fun q => (arcMoneyParser q arcNetworkId).map MoneyParseResult.amount)
        = ((parseDecimalQ ps).map fun qe => toString (Int.floor (qe * 1000000))))
  ∧ ((jsParseFloat "0.01").bind fun q =>
        (arcMoneyParser q arcNetworkId).map MoneyParseResult.amount)
      = some "10000"
  ∧ (∀ q : ℚ, arcMoneyParser q "eip155:1" = none) := by
  refine ⟨by decide, by decide, ?_⟩
  intro q
  simp [arcMoneyParser, arcNetworkId]

/-- Witness for C7: the offered price `$0.01` round-trips to the exact
fixed-precision amount. -/
theorem registry_fixed_precision_amount_witness :
    ((jsParseFloat "0.01").bind fun q =>
        (arcMoneyParser q arcNetworkId).map MoneyParseResult.amount)
      = ((parseDecimalQ "0.01").map fun qe => toString (Int.floor (qe * 1000000))) :=
  registry_fixed_precision_amount.1 "0.01" (by decide)

/-- C10: when the selected payment requirement carries a truthy pre-computed
`amount` field, `arc_pay_for_content` pays `BigInt(amount)` without ever
consulting the caller supplied `max_price` (the result is the same for any two
`max_price` values); the cap is enforced only on the branch where the
amount comes from a decimal `maxAmountRequired`/`price` string. -/
theorem payTool_cap_only_on_decimal_price (req : PayRequirementFields) (m1 m2 : String) :
    (jsTruthyOptStr req.amount = true →
        arcPayAmount req m1 = arcPayAmount req m2
      ∧ (∀ v, jsBigInt (jsOrStr req.amount "") = some v → arcPayAmount req m1 = .ok v))
  ∧ (jsTruthyOptStr req.amount = false →
      ∀ q mp,
        jsParseFloat (strReplaceFirst
            (jsOrStr (jsOrOpt req.maxAmountRequired (jsOrOpt req.price (some "$0.01"))) "") "$")
          = some q →
        jsParseFloat (jsOrStr (some m1) "1.00") = some mp →
        (mp < q → arcPayAmount req m1 = .error (.priceExceedsMax q mp))
      ∧ (¬ mp < q → arcPayAmount req m1 = .ok (Int.floor (jsMul q 1000000)))) := by
  constructor
  · intro htruthy
    constructor
    · unfold arcPayAmount
      rw [if_pos htruthy, if_pos htruthy]
    · intro v hv
      unfold arcPayAmount
      rw [if_pos htruthy, hv]
  · intro hfalsy q mp hq hmp
    constructor
    · intro hlt
      unfold arcPayAmount
      rw [if_neg (by simp [hfalsy])]
      simp only [hq, hmp]
      simp [jsGtOpt, hlt]
    · intro hge
      unfold arcPayAmount
      rw [if_neg (by simp [hfalsy])]
      simp only [hq, hmp]
      simp [jsGtOpt, hge]

/-- Witness for C10: a pre-computed amount of 999 USDC is paid unchanged
even though `max_price` is `$0.01`, and changing `max_price` changes
nothing. -/
theorem payTool_cap_only_on_decimal_price_witness :
    arcPayAmount ⟨some "999000000", none, none⟩ "0.01"
      = arcPayAmount ⟨some "999000000", none, none⟩ "50.00"
  ∧ arcPayAmount ⟨some "999000000", none, none⟩ "0.01" = .ok 999000000 := by
  have h := (payTool_cap_only_on_decimal_price ⟨some "999000000", none, none⟩
    "0.01" "50.00").1 (by decide)
  exact ⟨h.1, h.2 999000000 (by decide)⟩

/-- On a ledger with no empty-string hashes (the only writers pass `null`
or a non-empty hash), the falsy test of the code coincides with the
`txHash == null` test. -/
theorem paymentWanted_iff {slug payer : String} {p : Payment} (hp : p.txHash ≠ some "") :
    paymentWanted slug payer p = true ↔ matchesUnattached slug payer p := by
  unfold paymentWanted matchesUnattached
  cases htx : p.txHash with
  | none => simp [jsTruthyOptStr]
  | some s =>
    have hs : s ≠ "" := fun he => hp (htx.trans (by rw [he]))
    simp [jsTruthyOptStr, hs]

/-- When some record matches, `attachFirst` updates exactly the first
matching record and reports success. -/
theorem attachFirst_found {slug payer tx : String} : ∀ (l : List Payment),
    (∀ p ∈ l, p.txHash ≠ some "") →
    (∃ p ∈ l, matchesUnattached slug payer p) →
    ∃ pre q post, l = pre ++ q :: post
      ∧ (∀ r ∈ pre, ¬ matchesUnattached slug payer r)
      ∧ matchesUnattached slug payer q
      ∧ attachFirst slug payer tx l = (true, pre ++ { q with txHash := some tx } :: post)
  | [], _, hex => absurd hex (by simp)
  | p :: ps, hwf, hex => by
    by_cases hp : matchesUnattached slug payer p
    · refine ⟨[], p, ps, rfl, by simp, hp, ?_⟩
      unfold attachFirst
      rw [if_pos ((paymentWanted_iff (hwf p (by simp))).mpr hp)]
      rfl
    · have hex2 : ∃ q ∈ ps, matchesUnattached slug payer q := by
        rcases hex with ⟨q, hq, hmq⟩
        rcases List.mem_cons.mp hq with h | h
        · exact absurd (h ▸ hmq) hp
        · exact ⟨q, h, hmq⟩
      rcases attachFirst_found ps (fun r hr => hwf r (List.mem_cons_of_mem _ hr)) hex2 with
        ⟨pre, q, post, heq, hpre, hq, hrun⟩
      have hw : ¬ paymentWanted slug payer p = true :=
        fun hcon => hp ((paymentWanted_iff (hwf p (by simp))).mp hcon)
      refine ⟨p :: pre, q, post, by simp [heq], ?_, hq, ?_⟩
      · intro r hr
        rcases List.mem_cons.mp hr with h | h
        · exact h ▸ hp
        · exact hpre r h
      · unfold attachFirst
        rw [if_neg hw, hrun]
        rfl

/-- When no record matches, `attachFirst` reports failure and returns the
list unchanged. -/
theorem attachFirst_not_found {slug payer tx : String} : ∀ (l : List Payment),
    (∀ p ∈ l, p.txHash ≠ some "") →
    (∀ p ∈ l, ¬ matchesUnattached slug payer p) →
    attachFirst slug payer tx l = (false, l)
  | [], _, _ => rfl
  | p :: ps, hwf, hno => by
    have hw : ¬ paymentWanted slug payer p = true :=
      fun hcon => hno p (by simp) ((paymentWanted_iff (hwf p (by simp))).mp hcon)
    have ih := @attachFirst_not_found slug payer tx ps
      (fun r hr => hwf r (List.mem_cons_of_mem _ hr))
      (fun r hr => hno r (List.mem_cons_of_mem _ hr))
    unfold attachFirst
    rw [if_neg hw, ih]

/-- C2: on every well-formed ledger state (no attached hash is the empty
string — all writers guarantee this), `attachTransaction` with a matching
unattached record updates exactly the most recent such record (the
payments list is newest-first) with the given hash, leaves everything else
unchanged and returns true; with no matching unattached record it returns
false and leaves the ledger unchanged. -/
theorem attachTransaction_spec (s : StatsStore) (slug payer tx : String)
    (hwf : ∀ p ∈ s.payments, p.txHash ≠ some "") :
    ((∃ p ∈ s.payments, matchesUnattached slug payer p) →
      ∃ pre q post, s.payments = pre ++ q :: post
        ∧ (∀ r ∈ pre, ¬ matchesUnattached slug payer r)
        ∧ matchesUnattached slug payer q
        ∧ updatePaymentTxHash slug payer tx s
            = (true, { s with payments := pre ++ { q with txHash := some tx } :: post }))
  ∧ ((∀ p ∈ s.payments, ¬ matchesUnattached slug payer p) →
      updatePaymentTxHash slug payer tx s = (false, s)) := by
  constructor
  · intro hex
    rcases attachFirst_found s.payments hwf hex with ⟨pre, q, post, heq, hpre, hq, hrun⟩
    refine ⟨pre, q, post, heq, hpre, hq, ?_⟩
    unfold updatePaymentTxHash
    rw [hrun]
  · intro hno
    unfold updatePaymentTxHash
    rw [attachFirst_not_found s.payments hwf hno]

/-- Witness for C2: on a concrete three-record ledger (one reconciled, two
unattached, newest first) the most recent matching unattached record is
updated and the call returns true. -/
theorem attachTransaction_spec_witness :
    ∃ pre q post, c2Store.payments = pre ++ q :: post
      ∧ (∀ r ∈ pre, ¬ matchesUnattached "a1" "0xab" r)
      ∧ matchesUnattached "a1" "0xab" q
      ∧ updatePaymentTxHash "a1" "0xab" "0xnew" c2Store
          = (true, { c2Store with payments := pre ++ { q with txHash := some "0xnew" } :: post }) :=
  (attachTransaction_spec c2Store "a1" "0xab" "0xnew" (by decide)).1 (by decide)

/-- Attaching a hash never deletes a record, never reorders, and touches no
field other than `txHash`. -/
theorem attachFirst_stripTx {slug payer tx : String} : ∀ (l : List Payment),
    ((attachFirst slug payer tx l).2).map stripTx = l.map stripTx
  | [] => rfl
  | p :: ps => by
    unfold attachFirst
    by_cases hw : paymentWanted slug payer p = true
    · rw [if_pos hw]
      simp [stripTx]
    · rw [if_neg hw]
      have ih := @attachFirst_stripTx slug payer tx ps
      simp only [List.map_cons, ih]

/-- C3 amended: ledger records are never deleted by `attachTransaction`
(only a `txHash` may change); `recordPayment` prepends the new record but
retains only the 50 most recent records, evicting the oldest beyond that
cap; and the explicit administrative reset empties the ledger.  In
particular every previously recorded payment among the most recent 49 is
still present after another `recordPayment`. -/
theorem ledger_retention (s : StatsStore) (p : Payment) (title : String)
    (hlen : s.payments.length ≤ 50) :
    (recordPayment p title s).payments = (p :: s.payments).take 50
  ∧ (∀ slug payer tx,
      ((updatePaymentTxHash slug payer tx s).2.payments).map stripTx
        = s.payments.map stripTx)
  ∧ (resetStats s).payments = []
  ∧ (∀ q ∈ s.payments.take 49, q ∈ (recordPayment p title s).payments) := by
  have hrec : (recordPayment p title s).payments = (p :: s.payments).take 50 := by
    by_cases hl : (p :: s.payments).length > 50
    · simp only [recordPayment, if_pos hl]
      have h51 : (p :: s.payments).length = 51 := by
        simp only [List.length_cons] at hl ⊢
        omega
      rw [List.dropLast_eq_take, h51]
    · simp only [recordPayment, if_neg hl]
      rw [List.take_of_length_le (Nat.le_of_not_lt hl)]
  refine ⟨hrec, ?_, rfl, ?_⟩
  · intro slug payer tx
    unfold updatePaymentTxHash
    exact attachFirst_stripTx s.payments
  · intro q hq
    rw [hrec]
    have h50 : (p :: s.payments).take 50 = p :: s.payments.take 49 := rfl
    rw [h50]
    exact List.mem_cons_of_mem _ hq

/-- Witness for C3 amended: recording on a fresh store keeps the new record
(the take-50 form evaluates on the fresh store). -/
theorem ledger_retention_witness :
    (recordPayment (cPay 0) "Article" initialStore).payments
      = ((cPay 0) :: initialStore.payments).take 50 :=
  (ledger_retention initialStore (cPay 0) "Article" (by decide)).1

set_option maxRecDepth 8000 in
/-- C3 counterexample: the first recorded payment is present right after
recording, yet after a sequence of 51 `recordPayment` calls (and no
administrative reset) it has been deleted from the ledger. -/
theorem ledger_record_deleted_counterexample :
    cPay 0 ∈ (recordPayment (cPay 0) "Article" initialStore).payments
  ∧ cPay 0 ∉ ledgerAfter51.payments :=
  ⟨by decide, by decide⟩

end ArcMerchant
